import Mathlib

/-!
Verification of the asynchronous process-communication core of the `ink`
translation-label browser: the `Channel` class (send / receive / close /
isClosed), the `execChannel` process-execution bridge, and the `fromArray` /
`toArray` channel utilities.

The TypeScript source is embedded shallowly.  A `Channel` instance is a record
of its mutable fields (`buffer`, `closed`, `bufferSize`) together with an
explicit model of the Node `EventEmitter` it owns: the `"receive"`-event
listener list (the `tryPush` closures registered by suspended `send` calls) and
the `"message"`-event listener list (the `tryPop` closures registered by
suspended `receive` calls).  Emitting an event runs a snapshot of the current
listener list in registration order, exactly as Node's `EventEmitter.emit`
does; listener cascades are bounded by an explicit fuel (`none` = the cascade
did not settle within the fuel, i.e. divergence).  Promise resolution is
modelled by append-only logs: `resolvedSends` records every `resolve()` call of
a `send` promise (a send with id `i` has resolved iff `i` is in the log) and
`resolvedRecvs` records resolutions of suspended `receive` promises (the value
observed by a suspended receive is the first entry logged for its id, since a
promise keeps its first resolution).
-/

namespace Ink

/-- `ChannelMessage<T>` from the source: `{ data: T; done: boolean }`.
`data` is `Option T` because the terminal sentinel carries
`null as unknown as T`. -/
structure ChannelMessage (T : Type) where
  data : Option T
  done : Bool
deriving DecidableEq, Repr

/-- A `tryPush` closure registered on the `"receive"` event by a `send` call:
it captures the message being sent and the identity of the send's promise. -/
structure SendWaiter (T : Type) where
  id : Nat
  msg : ChannelMessage T
deriving DecidableEq, Repr

/-- The complete state of one `Channel<T>` instance: its fields plus the
listener lists of its `EventEmitter` and the promise-resolution logs. -/
structure Chan (T : Type) where
  bufferSize : Nat
  buffer : List (ChannelMessage T)
  closed : Bool
  /-- `"receive"`-event listeners: `tryPush` closures, in registration order. -/
  sendWaiters : List (SendWaiter T)
  /-- `"message"`-event listeners: ids of suspended `receive` calls whose
  `tryPop` closure is registered, in registration order. -/
  recvWaiters : List Nat
  /-- Log of `resolve()` calls on `send` promises (send ids). -/
  resolvedSends : List Nat
  /-- Log of `resolve(message)` calls on suspended `receive` promises. -/
  resolvedRecvs : List (Nat × ChannelMessage T)
deriving DecidableEq, Repr

/-- `new Channel<T>(bufferSize)`. -/
def Chan.new (T : Type) (bufferSize : Nat) : Chan T :=
  { bufferSize := bufferSize, buffer := [], closed := false,
    sendWaiters := [], recvWaiters := [], resolvedSends := [],
    resolvedRecvs := [] }

variable {T : Type}

/-- `resolve()` of a send promise: log the send id. -/
def resolveSend (sid : Nat) (st : Chan T) : Chan T :=
  { st with resolvedSends := st.resolvedSends ++ [sid] }

/-- `resolve(message)` of a suspended receive promise: log the pair.  The
value the promise actually keeps is the first entry for its id. -/
def resolveRecv (rid : Nat) (m : ChannelMessage T) (st : Chan T) : Chan T :=
  { st with resolvedRecvs := st.resolvedRecvs ++ [(rid, m)] }

/-- The `tryPop` closure body of `receive` (lines 143-150 of the source): if
the buffer is non-empty, shift the front message, emit `"receive"`, resolve
the receive promise with it and remove the listener.  `emitRecv` is the
channel's `"receive"`-event emission. -/
def popStep (emitRecv : Chan T → Option (Chan T)) (s : Chan T) (rid : Nat) :
    Option (Chan T) :=
  match s.buffer with
  | [] => some s
  | m :: rest => do
      let s₂ ← emitRecv { s with buffer := rest }
      let s₃ := resolveRecv rid m s₂
      some { s₃ with recvWaiters := s₃.recvWaiters.erase rid }

/-- The `tryPush` closure body of `send` (lines 111-118 of the source): if
`bufferSize === 0 || buffer.length < bufferSize`, push the message, emit
`"message"`, resolve the send promise and remove the listener. -/
def pushStep (emitMsg : Chan T → Option (Chan T)) (s : Chan T)
    (w : SendWaiter T) : Option (Chan T) :=
  if s.bufferSize = 0 ∨ s.buffer.length < s.bufferSize then do
    let s₂ ← emitMsg { s with buffer := s.buffer ++ [w.msg] }
    let s₃ := resolveSend w.id s₂
    some { s₃ with sendWaiters := s₃.sendWaiters.filter (fun x => x.id != w.id) }
  else some s

/-- `emitter.emit(event)`: run a snapshot of the current listener list in
order.  `tag = true` is the `"message"` event (runs the `tryPop` listeners),
`tag = false` is the `"receive"` event (runs the `tryPush` listeners).  Each
nested emission consumes one unit of fuel; `none` means the listener cascade
did not settle within the fuel. -/
def emitCore : Nat → Bool → Chan T → Option (Chan T)
  | 0, _, _ => none
  | fuel + 1, true, st => st.recvWaiters.foldlM (popStep (emitCore fuel false)) st
  | fuel + 1, false, st => st.sendWaiters.foldlM (pushStep (emitCore fuel true)) st

/-- `this.emitter.emit("message")`. -/
def emitMessage (fuel : Nat) (st : Chan T) : Option (Chan T) :=
  emitCore fuel true st

/-- `this.emitter.emit("receive")`. -/
def emitReceive (fuel : Nat) (st : Chan T) : Option (Chan T) :=
  emitCore fuel false st

/-- Outcome of a `send(value, done)` call. -/
inductive SendOutcome
  /-- The returned promise has resolved. -/
  | resolved
  /-- The returned promise is still pending (the send is suspended). -/
  | pending
  /-- The call threw `"Cannot send on closed channel"`. -/
  | errored
deriving DecidableEq, Repr

/-- Outcome of a `receive()` call. -/
inductive ReceiveOutcome (T : Type)
  /-- The returned promise resolved at once with this message. -/
  | immediate (m : ChannelMessage T)
  /-- The returned promise is still pending (the receive is suspended,
  its `tryPop` closure registered on the `"message"` event). -/
  | pending
deriving DecidableEq, Repr

/-- `Channel.send(value, done)` (source lines 97-125).  `sid` identifies the
promise created by this call.  Mirrors the source exactly: reject when closed;
fast path when `bufferSize > 0 && buffer.length < bufferSize`; otherwise call
`tryPush()` once and register it as a `"receive"` listener whenever
`buffer.length >= bufferSize` still holds afterwards (which is always true for
`bufferSize === 0` — the message was pushed, yet the listener is registered). -/
def send (fuel sid : Nat) (v : T) (dn : Bool) (st : Chan T) :
    Option (Chan T × SendOutcome) :=
  if st.closed then some (st, .errored)
  else
    let m : ChannelMessage T := { data := some v, done := dn }
    if 0 < st.bufferSize ∧ st.buffer.length < st.bufferSize then do
      let st₂ ← emitMessage fuel { st with buffer := st.buffer ++ [m] }
      some (resolveSend sid st₂, .resolved)
    else do
      let st₁ ← pushStep (emitMessage fuel) st ⟨sid, m⟩
      let st₂ :=
        if st₁.bufferSize ≤ st₁.buffer.length then
          { st₁ with sendWaiters := st₁.sendWaiters ++ [⟨sid, m⟩] }
        else st₁
      some (st₂, if st₂.resolvedSends.contains sid then .resolved else .pending)

/-- `Channel.receive()` (source lines 131-154).  `rid` identifies the promise
created by this call.  Closed-and-drained: immediate sentinel.  Non-empty
buffer: shift, emit `"receive"`, resolve with the front message.  Otherwise:
register the `tryPop` closure on the `"message"` event and stay pending. -/
def receive (fuel rid : Nat) (st : Chan T) : Option (Chan T × ReceiveOutcome T) :=
  if st.closed && st.buffer.isEmpty then
    some (st, .immediate { data := none, done := true })
  else
    match st.buffer with
    | m :: rest => do
        let st₂ ← emitReceive fuel { st with buffer := rest }
        some (st₂, .immediate m)
    | [] => some ({ st with recvWaiters := st.recvWaiters ++ [rid] }, .pending)

/-- `Channel.close()` (source lines 159-162): set `closed` and emit
`"message"`. -/
def close (fuel : Nat) (st : Chan T) : Option (Chan T) :=
  emitMessage fuel { st with closed := true }

/-- `Channel.isClosed()`. -/
def isClosed (st : Chan T) : Bool :=
  st.closed

/-! ### Call sequences

A producer issuing `send(v₁); …; send(vₙ)` without awaiting (the shape in P1),
and a consumer awaiting `receive()` n times.  The top-level sequencing passes
the emit fuel through unchanged: fuel bounds only the depth of one listener
cascade, not the length of a call sequence. -/

/-- Issue the sends `send(v, false)` for each value in order, with promise ids
`sid, sid+1, …`.  The caller does not await, so the sequence continues even
when a send stays pending. -/
def sendSeq (fuel : Nat) : List T → Nat → Chan T → Option (Chan T)
  | [], _, st => some st
  | v :: rest, sid, st => do
      let (st', _) ← send fuel sid v false st
      sendSeq fuel rest (sid + 1) st'

/-- Await `receive()` `n` times, collecting the resolved messages in order.
If a receive suspends, the awaiting consumer never reaches the next call, so
the sequence does not settle (`none`). -/
def receiveSeq (fuel : Nat) : Nat → Chan T → Option (Chan T × List (ChannelMessage T))
  | 0, st => some (st, [])
  | n + 1, st => do
      let (st₁, out) ← receive fuel 0 st
      match out with
      | .pending => none
      | .immediate m => do
          let (st₂, ms) ← receiveSeq fuel n st₁
          some (st₂, m :: ms)

/-! ### `fromArray` / `toArray` (source lines 323-357)

`fromArray` spawns an async producer that awaits each `send` in turn and then
closes; since the channel's buffer size equals the array length, no send ever
suspends, so running the producer to completion before the consumer starts is
a faithful schedule.  `toArray` loops awaiting `receive()`, accumulating
`message.data`, and stops after the message with `done: true`; the loop is
bounded by a step count (`none` = the loop did not finish within it). -/

/-- The body of `fromArray`'s async IIFE: `await channel.send(value, i ===
values.length - 1)` for each value, with send ids `i`.  An awaited send that
does not resolve (or throws) blocks the producer forever: `none`. -/
def fromArrayLoop (fuel : Nat) : List T → Nat → Nat → Chan T → Option (Chan T)
  | [], _, _, st => some st
  | v :: rest, i, total, st => do
      let (st', o) ← send fuel i v (i == total - 1) st
      match o with
      | .resolved => fromArrayLoop fuel rest (i + 1) total st'
      | _ => none

/-- `fromArray(values)`: a channel of buffer size `values.length`, all values
sent in order with only the last marked `done`, then closed. -/
def fromArray (fuel : Nat) (values : List T) : Option (Chan T) := do
  let st ← fromArrayLoop fuel values 0 values.length (Chan.new T values.length)
  close fuel st

/-- The `while (true)` loop of `toArray`: await `receive()`, push
`message.data`, break after the `done` message.  `steps` bounds the number of
iterations; a suspended receive blocks the loop forever (`none`). -/
def toArrayLoop (fuel : Nat) : Nat → Chan T → Option (List (Option T))
  | 0, _ => none
  | steps + 1, st => do
      let (st₁, out) ← receive fuel 0 st
      match out with
      | .pending => none
      | .immediate m =>
          if m.done then some [m.data]
          else do
            let rest ← toArrayLoop fuel steps st₁
            some (m.data :: rest)

/-- `toArray(channel)`. -/
def toArray (fuel steps : Nat) (st : Chan T) : Option (List (Option T)) :=
  toArrayLoop fuel steps st

/-! ### `execChannel` (source lines 201-316)

The bridge owns a `Channel<ExecResult>` of buffer size 1 and registers four
callbacks: the timeout timer, the stdout/stderr `data` listeners, and the
process `close`/`error` handlers.  Node delivers these callbacks one at a
time; we model a run of the bridge as a sequence of such events applied to the
bridge state.  None of the handlers awaits its `channel.send(...)`, so a send
that suspends or rejects does not stop a handler. -/

/-- `ExecResult` from the source. -/
structure ExecResult where
  stdout : String
  stderr : String
  code : Option Int
  signal : Option String
deriving DecidableEq, Repr

/-- The mutable state of one `execChannel` invocation: the channel, the
accumulated `stdoutData` / `stderrData`, `process.killed`, and whether the
timeout timer is still armed (`setTimeout` is one-shot and `clearTimeout`
disarms it). -/
structure ExecState where
  chan : Chan ExecResult
  stdoutData : String
  stderrData : String
  killed : Bool
  timerArmed : Bool
  nextSendId : Nat
deriving DecidableEq, Repr

/-- The state right after `execChannel` returns, for a call whose options
carry a `timeout`: a fresh `Channel<ExecResult>(1)` and an armed timer. -/
def execInit : ExecState :=
  { chan := Chan.new ExecResult 1, stdoutData := "", stderrData := "",
    killed := false, timerArmed := true, nextSendId := 0 }

/-- An asynchronous callback delivered to the bridge. -/
inductive ExecEvent
  /-- The timeout timer fires. -/
  | timeoutFires
  /-- A chunk arrives on stdout. -/
  | stdoutChunk (c : String)
  /-- A chunk arrives on stderr. -/
  | stderrChunk (c : String)
  /-- The process `close` event, with exit code and signal. -/
  | procClose (code : Option Int) (signal : Option String)
  /-- The process `error` event. -/
  | procError (msg : String)

/-- Run one bridge callback, exactly as the source handlers do.  The handlers
never await their sends, so the send outcome is discarded (a rejected send on
a closed channel is an unhandled rejection in the source). -/
def execStep (fuel : Nat) (es : ExecState) : ExecEvent → Option ExecState
  | .timeoutFires =>
      if es.timerArmed then
        let es₁ := { es with timerArmed := false }
        if !es₁.killed then do
          let es₂ := { es₁ with killed := true }
          let (st', _) ← send fuel es₂.nextSendId
            { stdout := es₂.stdoutData,
              stderr := es₂.stderrData ++ "\nProcess timed out",
              code := none, signal := none } true es₂.chan
          some { es₂ with chan := st', nextSendId := es₂.nextSendId + 1 }
        else some es₁
      else some es
  | .stdoutChunk c => do
      let es₁ := { es with stdoutData := es.stdoutData ++ c }
      let (st', _) ← send fuel es₁.nextSendId
        { stdout := c, stderr := "", code := none, signal := none } false es₁.chan
      some { es₁ with chan := st', nextSendId := es₁.nextSendId + 1 }
  | .stderrChunk c => do
      let es₁ := { es with stderrData := es.stderrData ++ c }
      let (st', _) ← send fuel es₁.nextSendId
        { stdout := "", stderr := c, code := none, signal := none } false es₁.chan
      some { es₁ with chan := st', nextSendId := es₁.nextSendId + 1 }
  | .procClose code signal => do
      let es₁ := { es with timerArmed := false }
      let (st', _) ← send fuel es₁.nextSendId
        { stdout := es₁.stdoutData, stderr := es₁.stderrData,
          code := code, signal := signal } true es₁.chan
      let st'' ← close fuel st'
      some { es₁ with chan := st'', nextSendId := es₁.nextSendId + 1 }
  | .procError msg => do
      let es₁ := { es with timerArmed := false }
      let (st', _) ← send fuel es₁.nextSendId
        { stdout := es₁.stdoutData, stderr := es₁.stderrData ++ "\n" ++ msg,
          code := none, signal := none } true es₁.chan
      let st'' ← close fuel st'
      some { es₁ with chan := st'', nextSendId := es₁.nextSendId + 1 }

/-- Run a sequence of bridge callbacks. -/
def execRun (fuel : Nat) (events : List ExecEvent) (es : ExecState) :
    Option ExecState :=
  events.foldlM (execStep fuel) es

/-! ### Descriptions of expected states -/

/-- The messages created by `send(v, false)` for each value of `vs`. -/
def plainMsgs (vs : List T) : List (ChannelMessage T) :=
  vs.map (fun v => ⟨some v, false⟩)

/-- The `tryPush` waiters of sends of `vs` with promise ids `sid, sid+1, …`. -/
def plainWaiters : Nat → List T → List (SendWaiter T)
  | _, [] => []
  | sid, v :: rest => ⟨sid, ⟨some v, false⟩⟩ :: plainWaiters (sid + 1) rest

/-- `n` consecutive ids starting at `sid`. -/
def idsFrom : Nat → Nat → List Nat
  | _, 0 => []
  | sid, n + 1 => sid :: idsFrom (sid + 1) n

/-- The messages created by `fromArray`'s producer for the values `vs`,
send index starting at `i` in an array of total length `total`: exactly the
entry with index `total - 1` is marked done. -/
def doneMsgs : Nat → Nat → List T → List (ChannelMessage T)
  | _, _, [] => []
  | i, total, v :: rest => ⟨some v, i == total - 1⟩ :: doneMsgs (i + 1) total rest

/-- The P1 scenario: `send(v₁); …; send(vₙ)` on a fresh channel of buffer size
`k`, then `receive()` awaited `n` times; the messages the receives resolve
with. -/
def fifoScenario (fuel k : Nat) (vs : List T) : Option (List (ChannelMessage T)) :=
  (sendSeq fuel vs 0 (Chan.new T k)).bind fun st =>
    (receiveSeq fuel vs.length st).map Prod.snd

/-! ### Concrete channel states used as witnesses -/

/-- A `Channel<number>(1)` that holds one buffered message and has one
suspended `send` (id 1, value 2) waiting for capacity — the state reached by
`send(1); send(2)` on a fresh `Channel(1)`. -/
def penderChan : Chan Nat :=
  { bufferSize := 1, buffer := [⟨some 1, false⟩], closed := false,
    sendWaiters := [⟨1, ⟨some 2, false⟩⟩], recvWaiters := [],
    resolvedSends := [0], resolvedRecvs := [] }

/-- A closed, drained channel. -/
def closedChan : Chan Nat :=
  { bufferSize := 0, buffer := [], closed := true, sendWaiters := [],
    recvWaiters := [], resolvedSends := [], resolvedRecvs := [] }

/-- An open `Channel<number>(1)` holding one undelivered buffered message —
the state reached by `send(5)` on a fresh `Channel(1)`. -/
def drainingPre : Chan Nat :=
  { bufferSize := 1, buffer := [⟨some 5, false⟩], closed := false,
    sendWaiters := [], recvWaiters := [], resolvedSends := [0],
    resolvedRecvs := [] }

end Ink

namespace Ink

variable {T : Type}

/-! ### Basic facts about event emission -/

theorem emitMessage_succ (fuel : Nat) (st : Chan T) :
    emitMessage (fuel + 1) st =
      st.recvWaiters.foldlM (popStep (emitReceive fuel)) st := rfl

theorem emitReceive_succ (fuel : Nat) (st : Chan T) :
    emitReceive (fuel + 1) st =
      st.sendWaiters.foldlM (pushStep (emitMessage fuel)) st := rfl

/-- A `tryPop` listener does nothing on an empty buffer. -/
theorem popStep_buffer_nil {e : Chan T → Option (Chan T)} {s : Chan T}
    (h : s.buffer = []) (rid : Nat) : popStep e s rid = some s := by
  simp [popStep, h]

/-- Emitting `"message"` on an empty buffer leaves the channel unchanged: every
`tryPop` listener checks `buffer.length > 0` and stays registered.  (This is
the heart of the lost-wakeup in `close()`.) -/
theorem emitMessage_buffer_nil {fuel : Nat} {st : Chan T} (hf : 0 < fuel)
    (h : st.buffer = []) : emitMessage fuel st = some st := by
  obtain ⟨f, rfl⟩ := Nat.exists_eq_succ_of_ne_zero (Nat.pos_iff_ne_zero.mp hf)
  rw [emitMessage_succ]
  generalize st.recvWaiters = rids
  induction rids with
  | nil => rfl
  | cons r rs ih => rw [List.foldlM_cons, popStep_buffer_nil h]; exact ih

/-- Emitting `"message"` with no registered `tryPop` listener is a no-op. -/
theorem emitMessage_no_recvWaiters {fuel : Nat} {st : Chan T} (hf : 0 < fuel)
    (h : st.recvWaiters = []) : emitMessage fuel st = some st := by
  obtain ⟨f, rfl⟩ := Nat.exists_eq_succ_of_ne_zero (Nat.pos_iff_ne_zero.mp hf)
  rw [emitMessage_succ, h]; rfl

/-- A `tryPush` listener does nothing while a positive-capacity buffer is
full. -/
theorem pushStep_at_capacity {e : Chan T → Option (Chan T)} {s : Chan T}
    (hk : 0 < s.bufferSize) (hfull : s.bufferSize ≤ s.buffer.length)
    (w : SendWaiter T) : pushStep e s w = some s := by
  have : ¬(s.bufferSize = 0 ∨ s.buffer.length < s.bufferSize) := by omega
  simp [pushStep, this]

/-- Running any list of `tryPush` listeners while a positive-capacity buffer
is full changes nothing. -/
theorem foldlM_pushStep_at_capacity {e : Chan T → Option (Chan T)} {s : Chan T}
    (hk : 0 < s.bufferSize) (hfull : s.bufferSize ≤ s.buffer.length) :
    ∀ ws : List (SendWaiter T), ws.foldlM (pushStep e) s = some s := by
  intro ws
  induction ws with
  | nil => rfl
  | cons w ws ih => rw [List.foldlM_cons, pushStep_at_capacity hk hfull]; exact ih

/-- Emitting `"receive"` while a positive-capacity buffer is full is a no-op:
every suspended `tryPush` re-checks capacity and stays registered. -/
theorem emitReceive_at_capacity {fuel : Nat} {st : Chan T} (hf : 0 < fuel)
    (hk : 0 < st.bufferSize) (hfull : st.bufferSize ≤ st.buffer.length) :
    emitReceive fuel st = some st := by
  obtain ⟨f, rfl⟩ := Nat.exists_eq_succ_of_ne_zero (Nat.pos_iff_ne_zero.mp hf)
  rw [emitReceive_succ]
  exact foldlM_pushStep_at_capacity hk hfull _

/-- Emitting `"receive"` with no registered `tryPush` listener is a no-op. -/
theorem emitReceive_no_sendWaiters {fuel : Nat} {st : Chan T} (hf : 0 < fuel)
    (h : st.sendWaiters = []) : emitReceive fuel st = some st := by
  obtain ⟨f, rfl⟩ := Nat.exists_eq_succ_of_ne_zero (Nat.pos_iff_ne_zero.mp hf)
  rw [emitReceive_succ, h]; rfl

/-! ### Preservation: no event cascade touches `closed` or `bufferSize` -/

theorem foldlM_chan_pres {α : Type} {step : Chan T → α → Option (Chan T)}
    (hstep : ∀ s x s', step s x = some s' →
      s'.closed = s.closed ∧ s'.bufferSize = s.bufferSize) :
    ∀ (l : List α) (s s' : Chan T), l.foldlM step s = some s' →
      s'.closed = s.closed ∧ s'.bufferSize = s.bufferSize := by
  intro l
  induction l with
  | nil => intro s s' h; cases h; exact ⟨rfl, rfl⟩
  | cons x xs ih =>
      intro s s' h
      rw [List.foldlM_cons] at h
      cases hx : step s x with
      | none => rw [hx] at h; cases h
      | some s₁ =>
          rw [hx] at h
          obtain ⟨h1, h2⟩ := hstep s x s₁ hx
          obtain ⟨h3, h4⟩ := ih s₁ s' h
          exact ⟨h3.trans h1, h4.trans h2⟩

theorem emitCore_pres : ∀ (fuel : Nat) (tag : Bool) (st st' : Chan T),
    emitCore fuel tag st = some st' →
    st'.closed = st.closed ∧ st'.bufferSize = st.bufferSize := by
  intro fuel
  induction fuel with
  | zero => intro tag st st' h; cases h
  | succ f ih =>
      intro tag st st' h
      cases tag with
      | true =>
          refine foldlM_chan_pres ?_ st.recvWaiters st st' h
          intro s rid s' hs
          cases hb : s.buffer with
          | nil => rw [popStep_buffer_nil hb] at hs; cases hs; exact ⟨rfl, rfl⟩
          | cons m rest =>
              simp only [popStep, hb, Option.bind_eq_bind, Option.bind_eq_some,
                Option.some.injEq] at hs
              obtain ⟨s₂, he, hs⟩ := hs
              obtain ⟨h1, h2⟩ := ih false _ _ he
              subst hs
              simpa [resolveRecv] using ⟨h1, h2⟩
      | false =>
          refine foldlM_chan_pres ?_ st.sendWaiters st st' h
          intro s w s' hs
          by_cases hc : s.bufferSize = 0 ∨ s.buffer.length < s.bufferSize
          · simp only [pushStep, if_pos hc, Option.bind_eq_bind, Option.bind_eq_some,
              Option.some.injEq] at hs
            obtain ⟨s₂, he, hs⟩ := hs
            obtain ⟨h1, h2⟩ := ih true _ _ he
            subst hs
            simpa [resolveSend] using ⟨h1, h2⟩
          · rw [pushStep, if_neg hc] at hs; cases hs; exact ⟨rfl, rfl⟩

theorem close_closed {fuel : Nat} {st st' : Chan T} (h : close fuel st = some st') :
    st'.closed = true := by
  have := emitCore_pres fuel true _ _ h
  simpa using this.1

/-! ### Characterizations of `send`, `receive` and `close` -/

/-- `send` on a closed channel throws without touching any state. -/
theorem send_closed {fuel sid : Nat} {st : Chan T} (hcl : st.closed = true)
    (v : T) (dn : Bool) : send fuel sid v dn st = some (st, .errored) := by
  simp [send, hcl]

/-- The buffered fast path: below capacity on a positive-capacity channel, the
message is enqueued and the send resolves at once. -/
theorem send_fast {fuel sid : Nat} {st : Chan T} (hf : 0 < fuel)
    (hcl : st.closed = false) (hk : 0 < st.bufferSize)
    (hroom : st.buffer.length < st.bufferSize) (hrw : st.recvWaiters = [])
    (v : T) (dn : Bool) :
    send fuel sid v dn st =
      some ({ st with buffer := st.buffer ++ [⟨some v, dn⟩],
                      resolvedSends := st.resolvedSends ++ [sid] }, .resolved) := by
  simp [send, hcl, if_pos (And.intro hk hroom),
    emitMessage_no_recvWaiters hf, hrw, resolveSend]

/-- At capacity on a positive-capacity channel: `tryPush` does nothing, the
`tryPush` closure is registered as a `"receive"` listener, and the send's
promise is pending unless its id was somehow already resolved. -/
theorem send_at_capacity {fuel sid : Nat} {st : Chan T} (hcl : st.closed = false)
    (hk : 0 < st.bufferSize) (hfull : st.bufferSize ≤ st.buffer.length)
    (v : T) (dn : Bool) :
    send fuel sid v dn st =
      some ({ st with sendWaiters := st.sendWaiters ++ [⟨sid, ⟨some v, dn⟩⟩] },
        if st.resolvedSends.contains sid then .resolved else .pending) := by
  have hnotfast : ¬(0 < st.bufferSize ∧ st.buffer.length < st.bufferSize) := by omega
  have hskip : pushStep (emitMessage fuel) st ⟨sid, ⟨some v, dn⟩⟩ = some st :=
    pushStep_at_capacity hk hfull _
  simp [send, hcl, if_neg hnotfast, hskip, if_pos hfull]

/-- The unbuffered (`bufferSize === 0`) path: `tryPush` enqueues at once and
resolves, yet the closure is still registered as a `"receive"` listener —
the next `"receive"` emission will push the same message again. -/
theorem send_unbuffered {fuel sid : Nat} {st : Chan T} (hf : 0 < fuel)
    (hcl : st.closed = false) (hk : st.bufferSize = 0) (hrw : st.recvWaiters = [])
    (hfresh : ∀ w ∈ st.sendWaiters, w.id ≠ sid) (v : T) (dn : Bool) :
    send fuel sid v dn st =
      some ({ st with buffer := st.buffer ++ [⟨some v, dn⟩],
                      sendWaiters := st.sendWaiters ++ [⟨sid, ⟨some v, dn⟩⟩],
                      resolvedSends := st.resolvedSends ++ [sid] }, .resolved) := by
  have hnotfast : ¬(0 < st.bufferSize ∧ st.buffer.length < st.bufferSize) := by omega
  have hfilter : st.sendWaiters.filter (fun x => x.id != sid) = st.sendWaiters :=
    List.filter_eq_self.mpr (fun w hw => by simpa using hfresh w hw)
  simp [send, hcl, if_neg hnotfast, pushStep, hk,
    emitMessage_no_recvWaiters hf, hrw, resolveSend, hfilter]

/-- `receive` on a non-empty buffer with no suspended sender: shift the front
message and resolve at once (whether or not the channel is closed). -/
theorem receive_nonempty {fuel rid : Nat} {st : Chan T} {m : ChannelMessage T}
    {rest : List (ChannelMessage T)} (hf : 0 < fuel) (hb : st.buffer = m :: rest)
    (hsw : st.sendWaiters = []) :
    receive fuel rid st = some ({ st with buffer := rest }, .immediate m) := by
  simp [receive, hb, emitReceive_no_sendWaiters hf, hsw]

/-- `receive` on an empty open channel suspends: its `tryPop` closure is
registered on the `"message"` event. -/
theorem receive_empty_open {fuel rid : Nat} {st : Chan T}
    (hcl : st.closed = false) (hb : st.buffer = []) :
    receive fuel rid st =
      some ({ st with recvWaiters := st.recvWaiters ++ [rid] }, .pending) := by
  simp [receive, hcl, hb]

/-- `receive` on a closed, drained channel resolves immediately with the
terminal sentinel and touches nothing. -/
theorem receive_closed_drained {fuel rid : Nat} {st : Chan T}
    (hcl : st.closed = true) (hb : st.buffer = []) :
    receive fuel rid st = some (st, .immediate ⟨none, true⟩) := by
  simp [receive, hcl, hb]

/-- `close` when no `tryPop` listener is registered: sets the flag, the
`"message"` emission finds no listener. -/
theorem close_no_recvWaiters {fuel : Nat} {st : Chan T} (hf : 0 < fuel)
    (hrw : st.recvWaiters = []) :
    close fuel st = some { st with closed := true } := by
  exact emitMessage_no_recvWaiters hf (by simpa using hrw)

/-- `close` on an empty buffer: sets the flag and nothing else — every
registered `tryPop` listener re-checks `buffer.length > 0`, finds the buffer
empty, and stays suspended.  Suspended receives are NOT released. -/
theorem close_buffer_nil {fuel : Nat} {st : Chan T} (hb : st.buffer = [])
    (hf : 0 < fuel) :
    close fuel st = some { st with closed := true } := by
  exact emitMessage_buffer_nil hf (by simpa using hb)

/-! ### Facts about the expected-state descriptions -/

theorem mem_idsFrom {x : Nat} : ∀ {sid n : Nat}, x ∈ idsFrom sid n ↔ sid ≤ x ∧ x < sid + n := by
  intro sid n
  induction n generalizing sid with
  | zero => simp [idsFrom]
  | succ n ih => simp [idsFrom, ih]; omega

theorem idsFrom_nodup : ∀ (sid n : Nat), (idsFrom sid n).Nodup := by
  intro sid n
  induction n generalizing sid with
  | zero => simp [idsFrom]
  | succ n ih =>
      simp only [idsFrom, List.nodup_cons]
      exact ⟨fun h => by have := mem_idsFrom.mp h; omega, ih (sid + 1)⟩

theorem plainWaiters_map_msg : ∀ (sid : Nat) (vs : List T),
    (plainWaiters sid vs).map SendWaiter.msg = plainMsgs vs := by
  intro sid vs
  induction vs generalizing sid with
  | nil => simp [plainWaiters, plainMsgs]
  | cons v rest ih => simp [plainWaiters, plainMsgs] at ih ⊢; exact ih _

theorem plainWaiters_map_id : ∀ (sid : Nat) (vs : List T),
    (plainWaiters sid vs).map SendWaiter.id = idsFrom sid vs.length := by
  intro sid vs
  induction vs generalizing sid with
  | nil => simp [plainWaiters, idsFrom]
  | cons v rest ih => simp [plainWaiters, idsFrom]; exact ih _

theorem plainWaiters_id_ge {sid : Nat} {vs : List T} {w : SendWaiter T}
    (h : w ∈ plainWaiters sid vs) : sid ≤ w.id := by
  have : w.id ∈ (plainWaiters sid vs).map SendWaiter.id := List.mem_map_of_mem _ h
  rw [plainWaiters_map_id] at this
  exact (mem_idsFrom.mp this).1

theorem plainMsgs_length (vs : List T) : (plainMsgs vs).length = vs.length := by
  simp [plainMsgs]

theorem plainWaiters_length : ∀ (sid : Nat) (vs : List T),
    (plainWaiters sid vs).length = vs.length := by
  intro sid vs
  induction vs generalizing sid with
  | nil => rfl
  | cons v rest ih => simp [plainWaiters]; exact ih _

/-! ### Send sequences -/

/-- A sequence of sends that all fit below capacity on a positive-capacity
channel: every send takes the fast path and resolves; the messages pile up in
FIFO order. -/
theorem sendSeq_buffered {fuel : Nat} (hf : 0 < fuel) :
    ∀ (vs : List T) (sid : Nat) (st : Chan T), st.closed = false →
      st.recvWaiters = [] → 0 < st.bufferSize →
      st.buffer.length + vs.length ≤ st.bufferSize →
      sendSeq fuel vs sid st =
        some { st with buffer := st.buffer ++ plainMsgs vs,
                       resolvedSends := st.resolvedSends ++ idsFrom sid vs.length } := by
  intro vs
  induction vs with
  | nil => intro sid st h1 h2 h3 h4; simp [sendSeq, plainMsgs, idsFrom]
  | cons v rest ih =>
      intro sid st h1 h2 h3 h4
      have hroom : st.buffer.length < st.bufferSize := by
        simp only [List.length_cons] at h4; omega
      simp only [sendSeq]
      rw [send_fast hf h1 h3 hroom h2]
      simp only [Option.bind_eq_bind, Option.some_bind]
      rw [ih (sid + 1) _ (by simpa using h1) (by simpa using h2) (by simpa using h3)
        (by simp only [List.length_append, List.length_cons, List.length_nil] at h4 ⊢; omega)]
      simp [plainMsgs, idsFrom, List.append_assoc]

/-- A sequence of sends issued while a positive-capacity channel is at
capacity: each call's `tryPush` finds the buffer full and is registered as a
`"receive"` listener; nothing else changes. -/
theorem sendSeq_at_capacity {fuel : Nat} :
    ∀ (vs : List T) (sid : Nat) (st : Chan T), st.closed = false →
      0 < st.bufferSize → st.bufferSize ≤ st.buffer.length →
      sendSeq fuel vs sid st =
        some { st with sendWaiters := st.sendWaiters ++ plainWaiters sid vs } := by
  intro vs
  induction vs with
  | nil => intro sid st h1 h2 h3; simp [sendSeq, plainWaiters]
  | cons v rest ih =>
      intro sid st h1 h2 h3
      simp only [sendSeq]
      rw [send_at_capacity h1 h2 h3]
      simp only [Option.bind_eq_bind, Option.some_bind]
      rw [ih (sid + 1) _ (by simpa using h1) (by simpa using h2) (by simpa using h3)]
      simp [plainWaiters, List.append_assoc]

/-- A sequence of sends on an unbuffered (`bufferSize === 0`) channel: every
message is enqueued eagerly and every send resolves, but every `tryPush`
closure is also left registered as a `"receive"` listener. -/
theorem sendSeq_unbuffered {fuel : Nat} (hf : 0 < fuel) :
    ∀ (vs : List T) (sid : Nat) (st : Chan T), st.closed = false →
      st.bufferSize = 0 → st.recvWaiters = [] →
      (∀ w ∈ st.sendWaiters, w.id < sid) →
      sendSeq fuel vs sid st =
        some { st with buffer := st.buffer ++ plainMsgs vs,
                       sendWaiters := st.sendWaiters ++ plainWaiters sid vs,
                       resolvedSends := st.resolvedSends ++ idsFrom sid vs.length } := by
  intro vs
  induction vs with
  | nil => intro sid st h1 h2 h3 h4; simp [sendSeq, plainMsgs, plainWaiters, idsFrom]
  | cons v rest ih =>
      intro sid st h1 h2 h3 h4
      simp only [sendSeq]
      rw [send_unbuffered hf h1 h2 h3 (fun w hw => Nat.ne_of_lt (h4 w hw))]
      simp only [Option.bind_eq_bind, Option.some_bind]
      rw [ih (sid + 1) _ (by simpa using h1) (by simpa using h2) (by simpa using h3) ?fresh]
      case fresh =>
        intro w hw
        simp only [List.mem_append, List.mem_singleton] at hw
        rcases hw with hw | hw
        · exact Nat.lt_succ_of_lt (h4 w hw)
        · subst hw; exact Nat.lt_succ_self sid
      simp [plainMsgs, plainWaiters, idsFrom, List.append_assoc]

/-- Splitting a send sequence. -/
theorem sendSeq_append (fuel : Nat) :
    ∀ (a b : List T) (sid : Nat) (st : Chan T),
      sendSeq fuel (a ++ b) sid st =
        (sendSeq fuel a sid st).bind (fun st' => sendSeq fuel b (sid + a.length) st') := by
  intro a
  induction a with
  | nil => intro b sid st; simp [sendSeq]
  | cons v rest ih =>
      intro b sid st
      simp only [List.cons_append, sendSeq]
      cases hsend : send fuel sid v false st with
      | none => simp
      | some p =>
          cases p with
          | mk st' o =>
              simp only [Option.bind_eq_bind, Option.some_bind, List.append_eq]
              rw [ih b (sid + 1) st']
              have : sid + (rest.length + 1) = sid + 1 + rest.length := by omega
              simp [List.length_cons, this]

/-! ### Receive sequences -/

/-- Draining a channel with no suspended sender: each `receive` shifts the
front message; the `"receive"` emission finds no listener. -/
theorem receiveSeq_drain {fuel : Nat} (hf : 0 < fuel) :
    ∀ (n : Nat) (st : Chan T), st.sendWaiters = [] → n ≤ st.buffer.length →
      receiveSeq fuel n st =
        some ({ st with buffer := st.buffer.drop n }, st.buffer.take n) := by
  intro n
  induction n with
  | zero => intro st h1 h2; simp [receiveSeq]
  | succ n ih =>
      intro st h1 h2
      obtain ⟨m, rest, hb⟩ : ∃ m rest, st.buffer = m :: rest := by
        cases hbuf : st.buffer with
        | nil => rw [hbuf] at h2; simp at h2
        | cons m rest => exact ⟨m, rest, rfl⟩
      simp only [receiveSeq]
      rw [receive_nonempty hf hb h1]
      simp only [Option.bind_eq_bind, Option.some_bind]
      rw [ih _ (by simpa using h1)
        (by rw [hb] at h2; simpa using Nat.le_of_succ_le_succ h2)]
      simp [hb]

/-- `receive` on a full positive-capacity buffer with suspended senders: the
front message is shifted and the `"receive"` emission wakes exactly the first
suspended `tryPush`, which enqueues its message at the back, resolves and
deregisters; the rest re-check capacity and stay suspended.  The `closed` flag
plays no role. -/
theorem receive_wake_one {fuel rid : Nat} {st : Chan T} {m : ChannelMessage T}
    {B : List (ChannelMessage T)} {w : SendWaiter T} {ws : List (SendWaiter T)}
    (hf : 1 < fuel) (hb : st.buffer = m :: B) (hsw : st.sendWaiters = w :: ws)
    (hrw : st.recvWaiters = []) (hk : 0 < st.bufferSize)
    (hcap : st.buffer.length = st.bufferSize)
    (hids : ∀ x ∈ ws, x.id ≠ w.id) :
    receive fuel rid st =
      some ({ st with buffer := B ++ [w.msg], sendWaiters := ws,
                      resolvedSends := st.resolvedSends ++ [w.id] }, .immediate m) := by
  obtain ⟨f, rfl⟩ : ∃ f, fuel = f + 1 := ⟨fuel - 1, by omega⟩
  have hf' : 0 < f := by omega
  have hlen : B.length + 1 = st.bufferSize := by
    rw [hb] at hcap; simpa using hcap
  have hfilter : (w :: ws).filter (fun x => x.id != w.id) = ws := by
    rw [List.filter_cons]
    simp only [bne_self_eq_false, Bool.false_eq_true, if_false]
    exact List.filter_eq_self.mpr (fun x hx => by simpa using hids x hx)
  have hpush : pushStep (emitMessage f)
      { st with buffer := B, sendWaiters := w :: ws } w =
      some { st with buffer := B ++ [w.msg], sendWaiters := ws,
                     resolvedSends := st.resolvedSends ++ [w.id] } := by
    have hcond : ({ st with buffer := B, sendWaiters := w :: ws } : Chan T).bufferSize = 0 ∨
        ({ st with buffer := B, sendWaiters := w :: ws } : Chan T).buffer.length <
          ({ st with buffer := B, sendWaiters := w :: ws } : Chan T).bufferSize := by
      right; simp; omega
    simp [pushStep, hcond, emitMessage_no_recvWaiters hf', hrw, resolveSend, hfilter]
  have hemit : emitReceive (f + 1) { st with buffer := B } =
      some { st with buffer := B ++ [w.msg], sendWaiters := ws,
                     resolvedSends := st.resolvedSends ++ [w.id] } := by
    rw [emitReceive_succ]
    simp only [hsw]
    rw [List.foldlM_cons, hpush]
    simp only [Option.bind_eq_bind, Option.some_bind]
    exact foldlM_pushStep_at_capacity (by simpa using hk) (by simp; omega) ws
  simp [receive, hb, hemit]

/-- Receiving from a full positive-capacity channel with a queue of suspended
senders delivers, in order, the buffered messages followed by the suspended
senders' messages. -/
theorem receiveSeq_backpressure {fuel : Nat} (hf : 1 < fuel) :
    ∀ (j : Nat) (W : List (SendWaiter T)) (st : Chan T),
      st.recvWaiters = [] → 0 < st.bufferSize → st.sendWaiters = W →
      (W.map SendWaiter.id).Nodup → st.buffer.length = st.bufferSize →
      j ≤ st.buffer.length + W.length →
      ∃ st', receiveSeq fuel j st =
        some (st', (st.buffer ++ W.map SendWaiter.msg).take j) := by
  intro j
  induction j with
  | zero => intro W st h1 h2 h3 h4 h5 h6; exact ⟨st, by simp [receiveSeq]⟩
  | succ j ih =>
      intro W st h1 h2 h3 h4 h5 h6
      cases W with
      | nil =>
          refine ⟨{ st with buffer := st.buffer.drop (j + 1) }, ?_⟩
          rw [receiveSeq_drain (show 0 < fuel by omega) (j + 1) st (by simpa using h3)
            (by simpa using h6)]
          simp
      | cons w ws =>
          obtain ⟨m, B, hb⟩ : ∃ m rest, st.buffer = m :: rest := by
            cases hbuf : st.buffer with
            | nil => rw [hbuf] at h5; simp at h5; omega
            | cons m rest => exact ⟨m, rest, rfl⟩
          simp only [List.map_cons, List.nodup_cons] at h4
          have hids : ∀ x ∈ ws, x.id ≠ w.id := by
            intro x hx
            intro hEq
            exact h4.1 (hEq ▸ List.mem_map_of_mem _ hx)
          simp only [receiveSeq]
          rw [receive_wake_one hf hb h3 h1 h2 h5 hids]
          simp only [Option.bind_eq_bind, Option.some_bind]
          obtain ⟨st', hst'⟩ := ih ws
            { st with buffer := B ++ [w.msg], sendWaiters := ws,
                      resolvedSends := st.resolvedSends ++ [w.id] }
            (by simpa using h1) (by simpa using h2) (by simp) (by exact h4.2)
            (by simp only [List.length_append, List.length_cons, List.length_nil]
                rw [hb] at h5; simp at h5; simpa using h5)
            (by simp only [List.length_append, List.length_cons, List.length_nil] at h6 ⊢
                rw [hb] at h6; simp at h6; omega)
          refine ⟨st', ?_⟩
          rw [hst']
          simp [hb, List.append_assoc]

/-- Running the `tryPush` listeners of an unbuffered channel: every one of
them (re-)pushes its captured message — `bufferSize === 0` always passes the
capacity check — resolves (a no-op for the already-resolved ones) and
deregisters. -/
theorem foldlM_pushStep_unbuffered {f : Nat} (hf : 0 < f) :
    ∀ (ws : List (SendWaiter T)) (s : Chan T), s.bufferSize = 0 →
      s.recvWaiters = [] → s.sendWaiters = ws →
      (ws.map SendWaiter.id).Nodup →
      ws.foldlM (pushStep (emitMessage f)) s =
        some { s with buffer := s.buffer ++ ws.map SendWaiter.msg,
                      sendWaiters := [],
                      resolvedSends := s.resolvedSends ++ ws.map SendWaiter.id } := by
  intro ws
  induction ws with
  | nil =>
      intro s h1 h2 h3 h4
      rw [List.foldlM_nil]
      simp only [List.map_nil, List.append_nil]
      rw [← h3]
      rfl
  | cons w rest ih =>
      intro s h1 h2 h3 h4
      simp only [List.map_cons, List.nodup_cons] at h4
      have hfilter : (w :: rest).filter (fun x => x.id != w.id) = rest := by
        rw [List.filter_cons]
        simp only [bne_self_eq_false, Bool.false_eq_true, if_false]
        refine List.filter_eq_self.mpr (fun x hx => ?_)
        have : x.id ≠ w.id := fun hEq => h4.1 (hEq ▸ List.mem_map_of_mem _ hx)
        simpa using this
      have hpush : pushStep (emitMessage f) s w =
          some { s with buffer := s.buffer ++ [w.msg], sendWaiters := rest,
                        resolvedSends := s.resolvedSends ++ [w.id] } := by
        simp [pushStep, h1, emitMessage_no_recvWaiters hf, h2, resolveSend, h3, hfilter]
      rw [List.foldlM_cons, hpush]
      simp only [Option.bind_eq_bind, Option.some_bind]
      rw [ih _ (by simpa using h1) (by simpa using h2) (by simp) h4.2]
      simp [List.append_assoc]

/-- The receive phase on an unbuffered channel right after `n` sends: the
first `receive` shifts the first message and its `"receive"` emission makes
every zombie `tryPush` re-push its message; the remaining `n - 1` receives
drain the front of the (now duplicated) queue.  The `n` receives still yield
the `n` sent values in order — the duplicates sit behind them. -/
theorem receiveSeq_unbuffered_phase {fuel : Nat} (hf : 1 < fuel) (vs : List T)
    (st : Chan T) (h0 : st.bufferSize = 0) (hrw : st.recvWaiters = [])
    (hb : st.buffer = plainMsgs vs)
    (hsw : st.sendWaiters = plainWaiters 0 vs) :
    ∃ st', receiveSeq fuel vs.length st = some (st', plainMsgs vs) := by
  obtain ⟨f, rfl⟩ : ∃ f, fuel = f + 1 := ⟨fuel - 1, by omega⟩
  have hf' : 0 < f := by omega
  cases vs with
  | nil => exact ⟨st, by simp [receiveSeq, plainMsgs]⟩
  | cons v rest =>
      have hb' : st.buffer = (⟨some v, false⟩ : ChannelMessage T) :: plainMsgs rest := by
        rw [hb]; rfl
      have hnodup : ((plainWaiters 0 (v :: rest)).map SendWaiter.id).Nodup := by
        rw [plainWaiters_map_id]; exact idsFrom_nodup 0 _
      have hemit : emitReceive (f + 1) { st with buffer := plainMsgs rest } =
          some { st with buffer := plainMsgs rest ++ plainMsgs (v :: rest),
                         sendWaiters := [],
                         resolvedSends := st.resolvedSends ++ idsFrom 0 (v :: rest).length } := by
        rw [emitReceive_succ]
        simp only [hsw]
        rw [foldlM_pushStep_unbuffered hf' (plainWaiters 0 (v :: rest)) _
          (by simpa using h0) (by simpa using hrw) (by simp) hnodup]
        rw [plainWaiters_map_msg, plainWaiters_map_id]
      have hrecv : receive (f + 1) 0 st =
          some ({ st with buffer := plainMsgs rest ++ plainMsgs (v :: rest),
                          sendWaiters := [],
                          resolvedSends := st.resolvedSends ++ idsFrom 0 (v :: rest).length },
            .immediate ⟨some v, false⟩) := by
        simp [receive, hb', hemit]
      refine ⟨{ st with
          buffer := (plainMsgs rest ++ plainMsgs (v :: rest)).drop rest.length,
          sendWaiters := [],
          resolvedSends := st.resolvedSends ++ idsFrom 0 (v :: rest).length }, ?_⟩
      simp only [List.length_cons, receiveSeq]
      rw [hrecv]
      simp only [Option.bind_eq_bind, Option.some_bind]
      rw [receiveSeq_drain (show 0 < f + 1 by omega) rest.length
        { st with buffer := plainMsgs rest ++ plainMsgs (v :: rest),
                  sendWaiters := [],
                  resolvedSends := st.resolvedSends ++ idsFrom 0 (v :: rest).length }
        (by simp) (by simp [plainMsgs_length])]
      have htake : (plainMsgs rest ++ plainMsgs (v :: rest)).take rest.length =
          plainMsgs rest := by
        have : rest.length = (plainMsgs rest).length := (plainMsgs_length rest).symm
        rw [this, List.take_left]
      simp [htake, plainMsgs]

/-! ### `fromArray` / `toArray` -/

/-- `fromArray`'s producer loop when every send fits below capacity: each send
takes the fast path and resolves, so the loop runs to completion. -/
theorem fromArrayLoop_buffered {fuel : Nat} (hf : 0 < fuel) :
    ∀ (vs : List T) (i total : Nat) (st : Chan T), st.closed = false →
      st.recvWaiters = [] → 0 < st.bufferSize →
      st.buffer.length + vs.length ≤ st.bufferSize →
      fromArrayLoop fuel vs i total st =
        some { st with buffer := st.buffer ++ doneMsgs i total vs,
                       resolvedSends := st.resolvedSends ++ idsFrom i vs.length } := by
  intro vs
  induction vs with
  | nil => intro i total st h1 h2 h3 h4; simp [fromArrayLoop, doneMsgs, idsFrom]
  | cons v rest ih =>
      intro i total st h1 h2 h3 h4
      have hroom : st.buffer.length < st.bufferSize := by
        simp only [List.length_cons] at h4; omega
      simp only [fromArrayLoop]
      rw [send_fast hf h1 h3 hroom h2]
      simp only [Option.bind_eq_bind, Option.some_bind]
      rw [ih (i + 1) total _ (by simpa using h1) (by simpa using h2) (by simpa using h3)
        (by simp only [List.length_append, List.length_cons, List.length_nil] at h4 ⊢; omega)]
      simp [doneMsgs, idsFrom, List.append_assoc]

/-- `toArray`'s loop on a channel whose buffer holds exactly the `fromArray`
messages (only the last is marked done) and with no suspended sender: the loop
collects every payload and stops after the done message. -/
theorem toArrayLoop_drain {fuel : Nat} (hf : 0 < fuel) :
    ∀ (vs : List T) (i total steps : Nat) (st : Chan T), vs ≠ [] →
      st.sendWaiters = [] → st.buffer = doneMsgs i total vs →
      i + vs.length = total → vs.length ≤ steps →
      toArrayLoop fuel steps st = some (vs.map some) := by
  intro vs
  induction vs with
  | nil => intro i total steps st hne; exact absurd rfl hne
  | cons v rest ih =>
      intro i total steps st _ hsw hb htotal hsteps
      obtain ⟨s, rfl⟩ : ∃ s, steps = s + 1 :=
        ⟨steps - 1, by simp only [List.length_cons] at hsteps; omega⟩
      have hb' : st.buffer = (⟨some v, i == total - 1⟩ : ChannelMessage T) ::
          doneMsgs (i + 1) total rest := by rw [hb]; rfl
      simp only [toArrayLoop]
      rw [receive_nonempty hf hb' hsw]
      simp only [Option.bind_eq_bind, Option.some_bind]
      cases rest with
      | nil =>
          have : (i == total - 1) = true := by
            simp only [List.length_cons, List.length_nil] at htotal
            simp [Nat.beq_eq_true_eq]; omega
          simp [this, doneMsgs]
      | cons v' rest' =>
          have hne2 : i ≠ total - 1 := by
            simp only [List.length_cons] at htotal; omega
          have : (i == total - 1) = false := by simp [hne2]
          rw [ih (i + 1) total s _ (by simp) (by simp [hsw]) (by simp)
            (by simp only [List.length_cons] at htotal ⊢; omega)
            (by simp only [List.length_cons] at hsteps ⊢; omega)]
          simp [this]

end Ink

namespace Ink

/-! ### Claim theorems -/

/-- **C1** (code bug).  The claim states that every message passed to `send()`
is observed by exactly one resolved `receive()` — in particular that a message
sent on a `bufferSize 0` channel is never delivered twice.  The code violates
this: on `new Channel<number>(0)`, after a single `send(42)` the first
`receive()` emits `"receive"`, which re-runs the still-registered `tryPush`
closure of the already-completed send (its `removeListener` ran before
`emitter.on` registered it), pushing the same message again — so a second
`receive()` observes `42` a second time.  This theorem evaluates the code at
that failing input: both receives resolve with the same message. -/
theorem C1_unbuffered_message_delivered_twice :
    (do
      let (st₁, _) ← send 3 0 (42 : Nat) false (Chan.new Nat 0)
      let (st₂, o₁) ← receive 3 0 st₁
      let (_, o₂) ← receive 3 1 st₂
      pure (o₁, o₂)) =
    some (.immediate ⟨some 42, false⟩, .immediate ⟨some 42, false⟩) := by
  decide

/-- **C2** (code bug).  The claim (and spec §4.2/§9) requires that an
`execChannel` call with a timeout sends exactly one terminal (`done: true`)
message, the timeout handler and the process-close handler being mutually
exclusive.  The code has no single-fire latch: when the timeout fires it kills
the process and sends a terminal message, and the killed process's `close`
event then fires the close handler, which sends a second terminal message.
This theorem evaluates that event sequence: a consumer draining the returned
channel receives two distinct `done: true` messages. -/
theorem C2_timeout_then_close_sends_two_terminals :
    (do
      let es ← execRun 3 [.timeoutFires, .procClose none (some "SIGTERM")] execInit
      let (st₁, o₁) ← receive 3 0 es.chan
      let (_, o₂) ← receive 3 1 st₁
      pure (o₁, o₂)) =
    some (.immediate ⟨some ⟨"", "\nProcess timed out", none, none⟩, true⟩,
          .immediate ⟨some ⟨"", "", none, some "SIGTERM"⟩, true⟩) := by
  decide

/-- **C3** (code bug).  The claim (and spec §4.1) says `close()` releases
every suspended `receive()`, resolving it with a terminal `done: true`
sentinel.  The code does not: `close()` only emits `"message"`, and a
suspended receive's `tryPop` listener is guarded by `buffer.length > 0`, so on
an empty queue it does nothing and stays registered.  Evaluating the failing
input — `receive()` on a fresh empty channel, then `close()` — shows the
receive still suspended (outcome `pending`, its listener with id 0 still
registered) and never resolved (`resolvedRecvs` empty); since every later
`send` on the closed channel rejects, it can never be resolved. -/
theorem C3_close_leaves_suspended_receive_pending :
    (do
      let (st₁, o₁) ← receive 2 0 (Chan.new Nat 0)
      let st₂ ← close 2 st₁
      pure (o₁, st₂.closed, st₂.recvWaiters, st₂.resolvedRecvs)) =
    some (.pending, true, [0], []) := by
  rfl

/-- **C4** (counterexample).  The claim says that once a `done = true` message
has been delivered, every subsequent `receive()` resolves immediately with a
`done: true` sentinel.  On `new Channel<number>(1)`, `send(7, true)` followed
by a `receive()` delivers the `done: true` message, yet — the channel never
having been closed — the next `receive()` finds an empty queue on an open
channel and suspends instead of resolving. -/
theorem C4_counterexample_receive_blocks_after_done :
    (do
      let (st₁, _) ← send 2 0 (7 : Nat) true (Chan.new Nat 1)
      let (st₂, o₁) ← receive 2 0 st₁
      let (_, o₂) ← receive 2 1 st₂
      pure (o₁, o₂)) =
    some (.immediate ⟨some 7, true⟩, .pending) := by
  decide

/-- **C4** (amended).  On every channel that has been closed and whose queue
is drained — which is the state the library's producers (`fromArray`,
`execChannel`) leave behind after their `done: true` send — every subsequent
`receive()` resolves immediately (never suspends) with the sentinel message
`{data: null, done: true}`, leaving the channel state untouched.  Without a
`close()`, delivery of a `done: true` message alone does not establish this. -/
theorem C4_amended_closed_drained_receive_is_immediate_sentinel
    (st : Chan T) (rid fuel : Nat) (hcl : st.closed = true)
    (hb : st.buffer = []) :
    receive fuel rid st = some (st, .immediate ⟨none, true⟩) :=
  receive_closed_drained hcl hb

/-- Witness for the amended C4 at a concrete closed, drained channel. -/
theorem C4_amended_witness :
    receive 0 5 closedChan = some (closedChan, .immediate ⟨none, true⟩) :=
  C4_amended_closed_drained_receive_is_immediate_sentinel closedChan 5 0
    (by decide) (by decide)

/-- **C6** (confirmed).  After `close()`, every `send()` rejects (throws
`"Cannot send on closed channel"`) leaving the channel state untouched;
`isClosed()` is true both before and after the rejected send (the state is
unchanged, so both queries read the same `closed = true` flag); and the
channel remains usable for draining: with no suspended sender, a `receive()`
still dequeues and resolves with the front buffered message. -/
theorem C6_closed_send_rejected_channel_still_drains
    (st st' : Chan T) (fuel f₂ sid rid : Nat) (v : T) (dn : Bool)
    (m : ChannelMessage T) (rest : List (ChannelMessage T))
    (hclose : close fuel st = some st') (hb : st'.buffer = m :: rest)
    (hsw : st'.sendWaiters = []) (hf₂ : 0 < f₂) :
    isClosed st' = true ∧
    send f₂ sid v dn st' = some (st', .errored) ∧
    receive f₂ rid st' = some ({ st' with buffer := rest }, .immediate m) := by
  have hc : st'.closed = true := close_closed hclose
  exact ⟨hc, send_closed hc v dn, receive_nonempty hf₂ hb hsw⟩

/-- Witness for C6: `close()` on a channel holding one buffered message, then
a rejected `send(9)` and a successful draining `receive()`. -/
theorem C6_witness :
    isClosed { drainingPre with closed := true } = true ∧
    send 1 7 (9 : Nat) false { drainingPre with closed := true } =
      some ({ drainingPre with closed := true }, .errored) ∧
    receive 1 3 { drainingPre with closed := true } =
      some ({ drainingPre with closed := true, buffer := [] },
        .immediate ⟨some 5, false⟩) :=
  C6_closed_send_rejected_channel_still_drains drainingPre
    { drainingPre with closed := true } 1 1 7 3 9 false ⟨some 5, false⟩ []
    (by decide) (by decide) (by decide) (by decide)

/-- **C9** (confirmed).  On a channel closed before any send — `close()` on a
fresh channel of any buffer size — `toArray` runs its loop once: the first
`receive()` resolves immediately with the sentinel `{data: null, done: true}`,
whose `data` is pushed before the `done` check breaks the loop.  The result is
the one-element array `[null]`, not the empty array. -/
theorem C9_toArray_of_closed_unsent_channel_is_singleton_null
    (T : Type) (k fuel steps : Nat) (hf : 0 < fuel) (hs : 0 < steps) :
    ∃ st, close fuel (Chan.new T k) = some st ∧
      toArray fuel steps st = some [(none : Option T)] := by
  refine ⟨{ Chan.new T k with closed := true }, close_no_recvWaiters hf rfl, ?_⟩
  obtain ⟨s, rfl⟩ : ∃ s, steps = s + 1 := ⟨steps - 1, by omega⟩
  simp only [toArray, toArrayLoop]
  rw [receive_closed_drained rfl rfl]
  simp

/-- Witness for C9 at `k = 0`, one loop step. -/
theorem C9_witness :
    ∃ st, close 1 (Chan.new Nat 0) = some st ∧
      toArray 1 1 st = some [(none : Option Nat)] :=
  C9_toArray_of_closed_unsent_channel_is_singleton_null Nat 0 1 1
    (by decide) (by decide)

/-- **C5** (counterexample).  The claim asserts the round-trip for every
finite array including the empty one.  For `A = []`, `fromArray` creates a
`Channel(0)`, sends nothing and closes; `toArray`'s first `receive()` then
resolves with the sentinel `{data: null, done: true}` whose `null` payload is
pushed before the loop breaks — the result is `[null]`, not `[]`. -/
theorem C5_counterexample_empty_array_roundtrip :
    (fromArray 2 ([] : List Nat)).bind (toArray 2 1) = some [none] ∧
    [(none : Option Nat)] ≠ ([] : List Nat).map some := by
  constructor
  · decide
  · decide

/-- **C5** (amended).  For every NONEMPTY finite array `A`,
`toArray(fromArray(A))` equals `A` (element-wise; in the model payloads are
embedded as `some`): `fromArray` creates a channel of buffer size `A.length`,
so every send takes the buffered fast path and resolves, the last one marked
`done: true`, and `toArray` drains exactly those messages in order, stopping
after the done message.  For the empty array the result is `[null]`, not
`[]`. -/
theorem C5_amended_roundtrip_nonempty (vs : List T) (fuel steps : Nat)
    (hne : vs ≠ []) (hf : 0 < fuel) (hsteps : vs.length ≤ steps) :
    (fromArray fuel vs).bind (toArray fuel steps) = some (vs.map some) := by
  have hkpos : 0 < vs.length := List.length_pos.mpr hne
  have hloop := fromArrayLoop_buffered hf vs 0 vs.length (Chan.new T vs.length)
    rfl rfl (by simpa [Chan.new] using hkpos) (by simp [Chan.new])
  have hloop' : fromArrayLoop fuel vs 0 vs.length (Chan.new T vs.length) =
      some { bufferSize := vs.length, buffer := doneMsgs 0 vs.length vs,
             closed := false, sendWaiters := [], recvWaiters := [],
             resolvedSends := idsFrom 0 vs.length, resolvedRecvs := [] } := by
    rw [hloop]; simp [Chan.new]
  simp only [fromArray]
  rw [hloop']
  simp only [Option.bind_eq_bind, Option.some_bind]
  rw [close_no_recvWaiters hf rfl]
  simp only [Option.some_bind, toArray]
  exact toArrayLoop_drain hf vs 0 vs.length steps _ hne rfl rfl (by omega) hsteps

/-- Witness for the amended C5 on the two-element array `[1, 2]`. -/
theorem C5_amended_witness :
    (fromArray 1 [1, 2]).bind (toArray 1 2) = some ([1, 2].map some) :=
  C5_amended_roundtrip_nonempty [1, 2] 1 2 (by decide) (by decide) (by decide)

/-- **C7** (confirmed).  For every buffer size `k` and every sequence of
values `v₁ … vₙ` all sent (without awaiting) before any `receive()`, awaiting
`receive()` n times yields exactly the messages `⟨v₁⟩ … ⟨vₙ⟩` in send order.
This holds in all three regimes: `k = 0` (eager unbuffered queue — the
duplicates the zombie listeners re-push stay *behind* the first n messages),
`n ≤ k` (pure buffering), and `n > k` (the suspended senders are woken in FIFO
order as receives free capacity). -/
theorem C7_fifo_order (k : Nat) (vs : List T) (fuel : Nat) (hf : 1 < fuel) :
    fifoScenario fuel k vs = some (plainMsgs vs) := by
  have hf0 : 0 < fuel := by omega
  have htake : (plainMsgs vs).take vs.length = plainMsgs vs := by
    rw [← plainMsgs_length vs]; exact List.take_length _
  by_cases hk : k = 0
  · subst hk
    have hsend := sendSeq_unbuffered hf0 vs 0 (Chan.new T 0) rfl rfl rfl
      (fun w hw => absurd hw (by simp [Chan.new]))
    have hsend' : sendSeq fuel vs 0 (Chan.new T 0) =
        some { bufferSize := 0, buffer := plainMsgs vs, closed := false,
               sendWaiters := plainWaiters 0 vs, recvWaiters := [],
               resolvedSends := idsFrom 0 vs.length, resolvedRecvs := [] } := by
      rw [hsend]; simp [Chan.new]
    obtain ⟨st', hrecv⟩ := receiveSeq_unbuffered_phase hf vs
      { bufferSize := 0, buffer := plainMsgs vs, closed := false,
        sendWaiters := plainWaiters 0 vs, recvWaiters := [],
        resolvedSends := idsFrom 0 vs.length, resolvedRecvs := [] }
      rfl rfl rfl rfl
    simp only [fifoScenario]
    rw [hsend']
    simp only [Option.bind_eq_bind, Option.some_bind]
    rw [hrecv]
    simp
  · have hkpos : 0 < k := Nat.pos_of_ne_zero hk
    by_cases hn : vs.length ≤ k
    · have hsend := sendSeq_buffered hf0 vs 0 (Chan.new T k) rfl rfl
        (by simpa [Chan.new] using hkpos) (by simp [Chan.new]; omega)
      have hsend' : sendSeq fuel vs 0 (Chan.new T k) =
          some { bufferSize := k, buffer := plainMsgs vs, closed := false,
                 sendWaiters := [], recvWaiters := [],
                 resolvedSends := idsFrom 0 vs.length, resolvedRecvs := [] } := by
        rw [hsend]; simp [Chan.new]
      simp only [fifoScenario]
      rw [hsend']
      simp only [Option.bind_eq_bind, Option.some_bind]
      rw [receiveSeq_drain hf0 vs.length
        { bufferSize := k, buffer := plainMsgs vs, closed := false,
          sendWaiters := [], recvWaiters := [],
          resolvedSends := idsFrom 0 vs.length, resolvedRecvs := [] }
        rfl (by simp [plainMsgs_length])]
      simp [htake]
    · have hnk : k ≤ vs.length := by omega
      have hlen_take : (vs.take k).length = k := by
        simp [List.length_take, Nat.min_eq_left hnk]
      have e1 : sendSeq fuel (vs.take k) 0 (Chan.new T k) =
          some { bufferSize := k, buffer := plainMsgs (vs.take k), closed := false,
                 sendWaiters := [], recvWaiters := [],
                 resolvedSends := idsFrom 0 k, resolvedRecvs := [] } := by
        rw [sendSeq_buffered hf0 (vs.take k) 0 (Chan.new T k) rfl rfl
          (by simpa [Chan.new] using hkpos)
          (by simp [Chan.new, List.length_take])]
        simp [Chan.new, hlen_take]
      have e2 : sendSeq fuel vs 0 (Chan.new T k) =
          some { bufferSize := k, buffer := plainMsgs (vs.take k), closed := false,
                 sendWaiters := plainWaiters k (vs.drop k), recvWaiters := [],
                 resolvedSends := idsFrom 0 k, resolvedRecvs := [] } := by
        have happ := sendSeq_append fuel (vs.take k) (vs.drop k) 0
          (Chan.new T k)
        rw [List.take_append_drop] at happ
        rw [happ, e1]
        simp only [Option.bind_eq_bind, Option.some_bind]
        rw [sendSeq_at_capacity (vs.drop k) (0 + (vs.take k).length)
          { bufferSize := k, buffer := plainMsgs (vs.take k), closed := false,
            sendWaiters := [], recvWaiters := [],
            resolvedSends := idsFrom 0 k, resolvedRecvs := [] }
          rfl hkpos (by simp [plainMsgs_length, hlen_take])]
        simp [hlen_take]
      have hnodup : ((plainWaiters k (vs.drop k)).map SendWaiter.id).Nodup := by
        rw [plainWaiters_map_id]; exact idsFrom_nodup _ _
      obtain ⟨st', hrecv⟩ := receiveSeq_backpressure hf vs.length
        (plainWaiters k (vs.drop k))
        { bufferSize := k, buffer := plainMsgs (vs.take k), closed := false,
          sendWaiters := plainWaiters k (vs.drop k), recvWaiters := [],
          resolvedSends := idsFrom 0 k, resolvedRecvs := [] }
        rfl hkpos rfl hnodup (by simp [plainMsgs_length, hlen_take])
        (by simp [plainMsgs_length, hlen_take, plainWaiters_length]; omega)
      simp only [fifoScenario]
      rw [e2]
      simp only [Option.bind_eq_bind, Option.some_bind]
      rw [hrecv]
      have hjoin : plainMsgs (vs.take k) ++ plainMsgs (vs.drop k) = plainMsgs vs := by
        simp [plainMsgs, ← List.map_append]
      simp [plainWaiters_map_msg, hjoin, htake]

/-- Witness for C7: three sends then three receives on a `Channel(1)`. -/
theorem C7_witness :
    fifoScenario 2 1 [3, 4, 5] = some (plainMsgs [3, 4, 5]) :=
  C7_fifo_order 1 [3, 4, 5] 2 (by decide)

/-- **C8** (confirmed).  On a fresh channel of buffer size `k > 0`, issuing
`k + 1` sends resolves exactly the first `k` of them (ids `0 … k-1` are in the
resolution log, in order) while the `(k+1)`-th send (id `k`) stays pending;
and as soon as one `receive()` occurs, its `"receive"` emission wakes the
suspended `tryPush`, which enqueues and resolves — id `k` enters the log. -/
theorem C8_buffered_capacity_and_backpressure (k : Nat) (hk : 0 < k)
    (vs : List T) (hlen : vs.length = k + 1) (fuel : Nat) (hf : 1 < fuel) :
    ∃ st, sendSeq fuel vs 0 (Chan.new T k) = some st ∧
      st.resolvedSends = idsFrom 0 k ∧
      (∀ i, i < k → i ∈ st.resolvedSends) ∧
      k ∉ st.resolvedSends ∧
      ∀ rid, ∃ st₂ m, receive fuel rid st = some (st₂, .immediate m) ∧
        k ∈ st₂.resolvedSends := by
  have hf0 : 0 < fuel := by omega
  have hnk : k ≤ vs.length := by omega
  have hlen_take : (vs.take k).length = k := by
    simp [List.length_take, Nat.min_eq_left hnk]
  obtain ⟨vl, hvl⟩ : ∃ vl, vs.drop k = [vl] :=
    List.length_eq_one.mp (by simp [List.length_drop]; omega)
  have e1 : sendSeq fuel (vs.take k) 0 (Chan.new T k) =
      some { bufferSize := k, buffer := plainMsgs (vs.take k), closed := false,
             sendWaiters := [], recvWaiters := [],
             resolvedSends := idsFrom 0 k, resolvedRecvs := [] } := by
    rw [sendSeq_buffered hf0 (vs.take k) 0 (Chan.new T k) rfl rfl
      (by simpa [Chan.new] using hk)
      (by simp [Chan.new, List.length_take])]
    simp [Chan.new, hlen_take]
  have e2 : sendSeq fuel vs 0 (Chan.new T k) =
      some { bufferSize := k, buffer := plainMsgs (vs.take k), closed := false,
             sendWaiters := [⟨k, ⟨some vl, false⟩⟩], recvWaiters := [],
             resolvedSends := idsFrom 0 k, resolvedRecvs := [] } := by
    have happ := sendSeq_append fuel (vs.take k) (vs.drop k) 0
      (Chan.new T k)
    rw [List.take_append_drop] at happ
    rw [happ, e1]
    simp only [Option.bind_eq_bind, Option.some_bind]
    rw [sendSeq_at_capacity (vs.drop k) (0 + (vs.take k).length)
      { bufferSize := k, buffer := plainMsgs (vs.take k), closed := false,
        sendWaiters := [], recvWaiters := [],
        resolvedSends := idsFrom 0 k, resolvedRecvs := [] }
      rfl hk (by simp [plainMsgs_length, hlen_take])]
    simp [hlen_take, hvl, plainWaiters]
  obtain ⟨v0, vrest, hv0⟩ : ∃ v0 vrest, vs.take k = v0 :: vrest := by
    cases hc : vs.take k with
    | nil => exfalso; rw [hc] at hlen_take; simp at hlen_take; omega
    | cons v0 vrest => exact ⟨v0, vrest, rfl⟩
  refine ⟨_, e2, rfl, ?_, ?_, ?_⟩
  · intro i hi
    exact mem_idsFrom.mpr ⟨Nat.zero_le i, by omega⟩
  · intro hmem
    have := mem_idsFrom.mp hmem
    omega
  · intro rid
    have hbuf : ({
        bufferSize := k, buffer := plainMsgs (vs.take k),
        closed := false, sendWaiters := [⟨k, ⟨some vl, false⟩⟩],
        recvWaiters := [], resolvedSends := idsFrom 0 k,
        resolvedRecvs := [] } : Chan T).buffer =
        (⟨some v0, false⟩ : ChannelMessage T) :: plainMsgs vrest := by
      simp [hv0, plainMsgs]
    refine ⟨_, ⟨some v0, false⟩, receive_wake_one hf hbuf rfl rfl hk
      (by simp [plainMsgs_length, hlen_take]) (by simp), ?_⟩
    simp

/-- Witness for C8: `k = 1`, sends of `[7, 8]`. -/
theorem C8_witness :
    ∃ st, sendSeq 2 [7, 8] 0 (Chan.new Nat 1) = some st ∧
      st.resolvedSends = idsFrom 0 1 ∧
      (∀ i, i < 1 → i ∈ st.resolvedSends) ∧
      1 ∉ st.resolvedSends ∧
      ∀ rid, ∃ st₂ m, receive 2 rid st = some (st₂, .immediate m) ∧
        1 ∈ st₂.resolvedSends :=
  C8_buffered_capacity_and_backpressure 1 (by decide) [7, 8] (by decide) 2
    (by decide)

/-- **C10** (confirmed).  On a positive-capacity channel at capacity with one
suspended `send`, `close()` does not reject (or otherwise touch) the
suspended send: its `tryPush` listener stays registered and its promise stays
unresolved.  The next `receive()` frees capacity and its `"receive"` emission
runs the suspended `tryPush`, which checks only capacity — never the `closed`
flag — so it enqueues its message and resolves.  Draining the (closed)
channel then delivers that message last. -/
theorem C10_close_spares_suspended_send (st : Chan T) (w : SendWaiter T)
    (m : ChannelMessage T) (B : List (ChannelMessage T)) (fuel : Nat)
    (hf : 1 < fuel) (hk : 0 < st.bufferSize) (hb : st.buffer = m :: B)
    (hcap : st.buffer.length = st.bufferSize)
    (hsw : st.sendWaiters = [w]) (hrw : st.recvWaiters = [])
    (hnres : w.id ∉ st.resolvedSends) :
    close fuel st = some { st with closed := true } ∧
    ({ st with closed := true } : Chan T).sendWaiters = [w] ∧
    w.id ∉ ({ st with closed := true } : Chan T).resolvedSends ∧
    receive fuel 0 { st with closed := true } =
      some ({ st with closed := true, buffer := B ++ [w.msg], sendWaiters := [],
                      resolvedSends := st.resolvedSends ++ [w.id] },
        .immediate m) ∧
    w.id ∈ st.resolvedSends ++ [w.id] ∧
    receiveSeq fuel (B ++ [w.msg]).length
      { st with closed := true, buffer := B ++ [w.msg], sendWaiters := [],
                resolvedSends := st.resolvedSends ++ [w.id] } =
      some ({ st with closed := true, buffer := [], sendWaiters := [],
                      resolvedSends := st.resolvedSends ++ [w.id] },
        B ++ [w.msg]) ∧
    (B ++ [w.msg]).getLast? = some w.msg := by
  have hf0 : 0 < fuel := by omega
  refine ⟨close_no_recvWaiters hf0 hrw, by simpa using hsw, by simpa using hnres,
    ?_, by simp, ?_, List.getLast?_concat _⟩
  · exact receive_wake_one hf (by simpa using hb) (by simp [hsw])
      (by simpa using hrw) (by simpa using hk) (by simpa using hcap)
      (by intro x hx; cases hx)
  · have hdrain := receiveSeq_drain hf0 (B ++ [w.msg]).length
      { st with closed := true, buffer := B ++ [w.msg], sendWaiters := [],
                resolvedSends := st.resolvedSends ++ [w.id] }
      rfl (by simp)
    rw [hdrain]
    simp

/-- Witness for C10: `Channel(1)` holding `1` with `send(2)` suspended. -/
theorem C10_witness :
    close 2 penderChan = some { penderChan with closed := true } ∧
    ({ penderChan with closed := true } : Chan Nat).sendWaiters =
      [⟨1, ⟨some 2, false⟩⟩] ∧
    (1 : Nat) ∉ ({ penderChan with closed := true } : Chan Nat).resolvedSends ∧
    receive 2 0 { penderChan with closed := true } =
      some ({ penderChan with
                closed := true, buffer := [⟨some 2, false⟩],
                sendWaiters := [], resolvedSends := [0, 1] },
        .immediate ⟨some 1, false⟩) ∧
    (1 : Nat) ∈ penderChan.resolvedSends ++ [1] ∧
    receiveSeq 2 ([(⟨some 2, false⟩ : ChannelMessage Nat)]).length
      { penderChan with
          closed := true, buffer := [⟨some 2, false⟩],
          sendWaiters := [], resolvedSends := [0, 1] } =
      some ({ penderChan with
                closed := true, buffer := [], sendWaiters := [],
                resolvedSends := [0, 1] },
        [⟨some 2, false⟩]) ∧
    ([] ++ [(⟨some 2, false⟩ : ChannelMessage Nat)]).getLast? =
      some (⟨some 2, false⟩ : ChannelMessage Nat) := by
  have h := C10_close_spares_suspended_send penderChan ⟨1, ⟨some 2, false⟩⟩
    ⟨some 1, false⟩ [] 2 (by decide) (by decide) (by decide) (by decide)
    (by decide) (by decide) (by decide)
  exact h

end Ink
